import Mathlib

/-!
Shallow embedding of the color-mapping module of the chart-demo repository
(`src/utils/colors.js` together with the legend generator of the main
component). JavaScript numbers are modelled as rationals — every arithmetic
step the claims exercise is exact in binary floating point, so `ℚ` is a
faithful model — strings are Lean `String`s, and the `throw` in `lerpColor`
is modelled by `Option.none`.
-/

namespace Colors

/-- One character class `[a-f\d]` of the regex in `hexToRgb`
(case-insensitive because of the `/i` flag). -/
def isHexDigit (c : Char) : Bool :=
  (('0' ≤ c && c ≤ '9') || ('a' ≤ c && c ≤ 'f') || ('A' ≤ c && c ≤ 'F'))

/-- Value of a single hexadecimal digit, as `parseInt(_, 16)` assigns it. -/
def hexDigitVal (c : Char) : Nat :=
  if '0' ≤ c && c ≤ '9' then c.toNat - 48
  else if 'a' ≤ c && c ≤ 'f' then c.toNat - 87
  else c.toNat - 55

/-- The RGB object returned by `hexToRgb`. -/
structure Rgb where
  r : Nat
  g : Nat
  b : Nat
  deriving DecidableEq, Repr

/-- The optional `#?` prefix of the regex. -/
def stripHash : List Char → List Char
  | '#' :: rest => rest
  | cs => cs

/-- Body of the regex after the optional `#`: exactly six characters of the
class `[a-f\d]`, grouped in pairs and read with `parseInt(_, 16)`. -/
def parseHex6 (cs : List Char) : Option Rgb :=
  match cs with
  | [c1, c2, c3, c4, c5, c6] =>
    if isHexDigit c1 && isHexDigit c2 && isHexDigit c3 &&
       isHexDigit c4 && isHexDigit c5 && isHexDigit c6 then
      some ⟨16 * hexDigitVal c1 + hexDigitVal c2,
            16 * hexDigitVal c3 + hexDigitVal c4,
            16 * hexDigitVal c5 + hexDigitVal c6⟩
    else none
  | _ => none

/-- Embedding of `hexToRgb`: match the string against
`/^#?([a-f\d]{2})([a-f\d]{2})([a-f\d]{2})$/i` and parse the three channel
groups; `null` (here `none`) when the regex does not match. -/
def hexToRgb (s : String) : Option Rgb :=
  parseHex6 (stripHash s.data)

/-- JavaScript `Math.round`: round half toward positive infinity. -/
def jsRound (q : ℚ) : ℤ := ⌊q + 1 / 2⌋

/-- Lowercase hexadecimal digit character for a value below 16,
as produced by `Number.prototype.toString(16)`. -/
def hexChar (n : Nat) : Char :=
  if n < 10 then Char.ofNat (48 + n) else Char.ofNat (87 + n)

/-- Digit-production loop of `n.toString(16)`, structurally recursive on a
fuel argument; `natToHex` supplies fuel `n`, which always suffices because
the value shrinks by a factor of 16 per step. -/
def natToHexAux : Nat → Nat → List Char
  | 0, n => [hexChar n]
  | fuel + 1, n =>
    if n < 16 then [hexChar n]
    else natToHexAux fuel (n / 16) ++ [hexChar (n % 16)]

/-- Hexadecimal digit list of a natural number, most significant first,
as `n.toString(16)` produces for a nonnegative integer. -/
def natToHex (n : Nat) : List Char := natToHexAux n n

/-- Embedding of `i.toString(16)` on an integer: a minus sign before the
digits of the absolute value when the integer is negative. -/
def intToHex (i : ℤ) : List Char :=
  if i < 0 then '-' :: natToHex i.natAbs else natToHex i.toNat

/-- The inner `toHex` of `rgbToHex` after `Math.round`: format in base 16
and left-pad to two characters when the result is a single character. -/
def padHex (i : ℤ) : List Char :=
  let h := intToHex i
  if h.length = 1 then '0' :: h else h

/-- Embedding of `rgbToHex`: round each channel, format it in lowercase
base 16 padded to two digits, and prefix `#`. -/
def rgbToHex (r g b : ℚ) : String :=
  String.mk ('#' :: (padHex (jsRound r) ++ padHex (jsRound g) ++ padHex (jsRound b)))

/-- Rounded interpolated value of one channel:
`rgb1.ch + (rgb2.ch - rgb1.ch) * t` followed by the `Math.round` that
`rgbToHex` applies. -/
def lerpChannel (a b t : ℚ) : ℤ := jsRound (a + (b - a) * t)

/-- Embedding of `lerpColor`: parse both colors (the thrown
`Invalid hex color provided` error is `none`), interpolate each channel
linearly and format the result. -/
def lerpColor (hex1 hex2 : String) (t : ℚ) : Option String :=
  match hexToRgb hex1, hexToRgb hex2 with
  | some rgb1, some rgb2 =>
      some (rgbToHex ((rgb1.r : ℚ) + ((rgb2.r : ℚ) - (rgb1.r : ℚ)) * t)
                     ((rgb1.g : ℚ) + ((rgb2.g : ℚ) - (rgb1.g : ℚ)) * t)
                     ((rgb1.b : ℚ) + ((rgb2.b : ℚ) - (rgb1.b : ℚ)) * t))
  | _, _ => none

/-- The clamped interpolation factor of `colorFor`:
`Math.max(0, Math.min(1, (value + 1) / 2))`. -/
def tFactor (value : ℚ) : ℚ := max 0 (min 1 ((value + 1) / 2))

/-- Embedding of `colorFor`: map a correlation value to a hex color by
interpolating from the high color toward the low color at factor `1 - t`. -/
def colorFor (value : ℚ) (highColor : String := "#2B65DB")
    (lowColor : String := "#CCDAF6") : Option String :=
  lerpColor highColor lowColor (1 - tFactor value)

/-- The `generateLegendDots` function of the main component: eight
interpolation steps from the low color to the high color at factors
`i / 7`. -/
def generateLegendDots (lowColor highColor : String) : List (Option String) :=
  (List.range 8).map (fun i => lerpColor lowColor highColor ((i : ℚ) / 7))

/-- A lowercase hexadecimal digit: `0`-`9` or `a`-`f`. -/
def isLowerHexDigit (c : Char) : Bool :=
  (('0' ≤ c && c ≤ '9') || ('a' ≤ c && c ≤ 'f'))

/-- The pattern of an optional `#` followed by exactly six hexadecimal
digits, stated independently of the parser. -/
def matchesHexPattern (s : String) : Bool :=
  (stripHash s.data).length = 6 && (stripHash s.data).all isHexDigit

/-- A canonical color string: `#` followed by exactly six lowercase
hexadecimal digits — the output format of `rgbToHex`. -/
def wellFormedLowerHex (s : String) : Bool :=
  match s.data with
  | '#' :: cs => cs.length = 6 && cs.all isLowerHexDigit
  | _ => false

/-! ### Character-level facts -/

theorem toNat_char_zero : '0'.toNat = 48 := rfl

theorem toNat_char_nine : '9'.toNat = 57 := rfl

theorem toNat_char_a : 'a'.toNat = 97 := rfl

theorem toNat_char_f : 'f'.toNat = 102 := rfl

theorem toNat_char_A : 'A'.toNat = 65 := rfl

theorem toNat_char_F : 'F'.toNat = 70 := rfl

theorem char_le_iff (a b : Char) : a ≤ b ↔ a.toNat ≤ b.toNat := by
  rw [Char.le_def, UInt32.le_def, BitVec.le_def]
  exact Iff.rfl

theorem char_toNat_ofNat {n : Nat} (h : n < 55296) : (Char.ofNat n).toNat = n := by
  rw [Char.ofNat]
  split
  · rw [Char.ofNatAux]
    simp [Char.toNat, UInt32.ofNat', UInt32.toNat, BitVec.toNat_ofNatLt]
  · omega

theorem char_eq_of_toNat {a b : Char} (h : a.toNat = b.toNat) : a = b := by
  rw [← Char.ofNat_toNat a, h, Char.ofNat_toNat]

theorem isLowerHexDigit_ranges {c : Char} (h : isLowerHexDigit c = true) :
    (48 ≤ c.toNat ∧ c.toNat ≤ 57) ∨ (97 ≤ c.toNat ∧ c.toNat ≤ 102) := by
  simp only [isLowerHexDigit, Bool.or_eq_true, Bool.and_eq_true,
    decide_eq_true_eq, char_le_iff, toNat_char_zero, toNat_char_nine,
    toNat_char_a, toNat_char_f] at h
  exact h

theorem isHexDigit_ranges {c : Char} (h : isHexDigit c = true) :
    (48 ≤ c.toNat ∧ c.toNat ≤ 57) ∨ (97 ≤ c.toNat ∧ c.toNat ≤ 102) ∨
    (65 ≤ c.toNat ∧ c.toNat ≤ 70) := by
  simp only [isHexDigit, Bool.or_eq_true, Bool.and_eq_true,
    decide_eq_true_eq, char_le_iff, toNat_char_zero, toNat_char_nine,
    toNat_char_a, toNat_char_f, toNat_char_A, toNat_char_F] at h
  tauto

theorem isHexDigit_of_lower {c : Char} (h : isLowerHexDigit c = true) :
    isHexDigit c = true := by
  simp only [isLowerHexDigit, Bool.or_eq_true] at h
  simp only [isHexDigit, Bool.or_eq_true]
  tauto

theorem hexDigitVal_lt {c : Char} (h : isHexDigit c = true) : hexDigitVal c < 16 := by
  have hr := isHexDigit_ranges h
  unfold hexDigitVal
  split
  · next hc =>
    simp only [Bool.and_eq_true, decide_eq_true_eq, char_le_iff, toNat_char_zero,
      toNat_char_nine] at hc
    omega
  · next hc =>
    simp only [Bool.and_eq_true, decide_eq_true_eq, char_le_iff, not_and,
      toNat_char_zero, toNat_char_nine] at hc
    split
    · next hc2 =>
      simp only [Bool.and_eq_true, decide_eq_true_eq, char_le_iff, toNat_char_a,
        toNat_char_f] at hc2
      omega
    · next hc2 =>
      simp only [Bool.and_eq_true, decide_eq_true_eq, char_le_iff, not_and,
        toNat_char_a, toNat_char_f] at hc2
      omega

/-! ### Digit and formatting lemmas -/

theorem hexDigitVal_eq_digit {c : Char} (h1 : 48 ≤ c.toNat) (h2 : c.toNat ≤ 57) :
    hexDigitVal c = c.toNat - 48 := by
  unfold hexDigitVal
  split
  · rfl
  · next hc =>
    exfalso
    simp only [Bool.and_eq_true, decide_eq_true_eq, char_le_iff, toNat_char_zero,
      toNat_char_nine] at hc
    omega

theorem hexDigitVal_eq_lower {c : Char} (h1 : 97 ≤ c.toNat) (h2 : c.toNat ≤ 102) :
    hexDigitVal c = c.toNat - 87 := by
  unfold hexDigitVal
  split
  · next hc =>
    exfalso
    simp only [Bool.and_eq_true, decide_eq_true_eq, char_le_iff, toNat_char_zero,
      toNat_char_nine] at hc
    omega
  · split
    · rfl
    · next hc =>
      exfalso
      simp only [Bool.and_eq_true, decide_eq_true_eq, char_le_iff, toNat_char_a,
        toNat_char_f] at hc
      omega

theorem hexChar_toNat_small {d : Nat} (hd : d < 10) : (hexChar d).toNat = 48 + d := by
  rw [hexChar, if_pos hd]
  exact char_toNat_ofNat (by omega)

theorem hexChar_toNat_large {d : Nat} (hd1 : 10 ≤ d) (hd2 : d < 16) :
    (hexChar d).toNat = 87 + d := by
  rw [hexChar, if_neg (by omega)]
  exact char_toNat_ofNat (by omega)

theorem isLowerHexDigit_hexChar {d : Nat} (h : d < 16) :
    isLowerHexDigit (hexChar d) = true := by
  simp only [isLowerHexDigit, Bool.or_eq_true, Bool.and_eq_true, decide_eq_true_eq,
    char_le_iff, toNat_char_zero, toNat_char_nine, toNat_char_a, toNat_char_f]
  by_cases hd : d < 10
  · rw [hexChar_toNat_small hd]
    omega
  · rw [hexChar_toNat_large (by omega) h]
    omega

theorem hexDigitVal_hexChar {d : Nat} (h : d < 16) : hexDigitVal (hexChar d) = d := by
  by_cases hd : d < 10
  · rw [hexDigitVal_eq_digit (by rw [hexChar_toNat_small hd]; omega)
      (by rw [hexChar_toNat_small hd]; omega), hexChar_toNat_small hd]
    omega
  · rw [hexDigitVal_eq_lower (by rw [hexChar_toNat_large (by omega) h]; omega)
      (by rw [hexChar_toNat_large (by omega) h]; omega), hexChar_toNat_large (by omega) h]
    omega

theorem hexChar_hexDigitVal {c : Char} (h : isLowerHexDigit c = true) :
    hexChar (hexDigitVal c) = c := by
  rcases isLowerHexDigit_ranges h with ⟨h1, h2⟩ | ⟨h1, h2⟩
  · rw [hexDigitVal_eq_digit h1 h2]
    apply char_eq_of_toNat
    rw [hexChar_toNat_small (by omega)]
    omega
  · rw [hexDigitVal_eq_lower h1 h2]
    apply char_eq_of_toNat
    rw [hexChar_toNat_large (by omega) (by omega)]
    omega

theorem natToHexAux_small (fuel : Nat) {n : Nat} (h : n < 16) :
    natToHexAux fuel n = [hexChar n] := by
  cases fuel
  · rfl
  · rw [natToHexAux, if_pos h]

theorem natToHex_small {n : Nat} (h : n < 16) : natToHex n = [hexChar n] :=
  natToHexAux_small n h

theorem natToHex_pair {n : Nat} (h1 : 16 ≤ n) (h2 : n < 256) :
    natToHex n = [hexChar (n / 16), hexChar (n % 16)] := by
  obtain ⟨m, rfl⟩ : ∃ m, n = m + 1 := ⟨n - 1, by omega⟩
  show natToHexAux (m + 1) (m + 1) = _
  rw [natToHexAux, if_neg (by omega), natToHexAux_small m (by omega)]
  rfl

theorem padHex_eval {n : Nat} (h : n < 256) :
    padHex (n : ℤ) = [hexChar (n / 16), hexChar (n % 16)] := by
  have hnn : ¬ ((n : ℤ) < 0) := by omega
  have htn : ((n : ℤ)).toNat = n := by omega
  simp only [padHex, intToHex]
  rw [if_neg hnn, htn]
  by_cases hn : n < 16
  · rw [natToHex_small hn]
    have h0 : hexChar 0 = '0' := by decide
    have hdiv : n / 16 = 0 := Nat.div_eq_of_lt hn
    have hmod : n % 16 = n := Nat.mod_eq_of_lt hn
    simp [hdiv, hmod, h0]
  · rw [natToHex_pair (by omega) h]
    simp

theorem jsRound_intCast (i : ℤ) : jsRound (i : ℚ) = i := by
  unfold jsRound
  rw [add_comm, Int.floor_add_int]
  norm_num

theorem jsRound_natCast (n : ℕ) : jsRound (n : ℚ) = n := by
  have h := jsRound_intCast (n : ℤ)
  rw [← h]
  norm_num

theorem jsRound_mono {p q : ℚ} (h : p ≤ q) : jsRound p ≤ jsRound q :=
  Int.floor_le_floor (by linarith)

theorem rgbToHex_natCast_eval {r g b : ℕ} (hr : r < 256) (hg : g < 256) (hb : b < 256) :
    rgbToHex (r : ℚ) (g : ℚ) (b : ℚ) =
      String.mk ('#' :: ([hexChar (r / 16), hexChar (r % 16)] ++
        [hexChar (g / 16), hexChar (g % 16)] ++ [hexChar (b / 16), hexChar (b % 16)])) := by
  unfold rgbToHex
  rw [jsRound_natCast, jsRound_natCast, jsRound_natCast,
    padHex_eval hr, padHex_eval hg, padHex_eval hb]

/-! ### Parsing lemmas -/

theorem wellFormed_data {s : String} (h : wellFormedLowerHex s = true) :
    ∃ c1 c2 c3 c4 c5 c6, s.data = ['#', c1, c2, c3, c4, c5, c6] ∧
      isLowerHexDigit c1 = true ∧ isLowerHexDigit c2 = true ∧
      isLowerHexDigit c3 = true ∧ isLowerHexDigit c4 = true ∧
      isLowerHexDigit c5 = true ∧ isLowerHexDigit c6 = true := by
  unfold wellFormedLowerHex at h
  split at h
  · next cs heq =>
    rcases cs with _ | ⟨c1, _ | ⟨c2, _ | ⟨c3, _ | ⟨c4, _ | ⟨c5, _ | ⟨c6, _ | ⟨c7, tl⟩⟩⟩⟩⟩⟩⟩ <;>
      simp at h
    obtain ⟨h1, h2, h3, h4, h5, h6⟩ := h
    exact ⟨c1, c2, c3, c4, c5, c6, heq, h1, h2, h3, h4, h5, h6⟩
  · exact absurd h (by simp)

theorem parseHex6_all_lower {c1 c2 c3 c4 c5 c6 : Char}
    (l1 : isLowerHexDigit c1 = true) (l2 : isLowerHexDigit c2 = true)
    (l3 : isLowerHexDigit c3 = true) (l4 : isLowerHexDigit c4 = true)
    (l5 : isLowerHexDigit c5 = true) (l6 : isLowerHexDigit c6 = true) :
    parseHex6 [c1, c2, c3, c4, c5, c6] =
      some ⟨16 * hexDigitVal c1 + hexDigitVal c2,
            16 * hexDigitVal c3 + hexDigitVal c4,
            16 * hexDigitVal c5 + hexDigitVal c6⟩ := by
  simp [parseHex6, isHexDigit_of_lower l1, isHexDigit_of_lower l2, isHexDigit_of_lower l3,
    isHexDigit_of_lower l4, isHexDigit_of_lower l5, isHexDigit_of_lower l6]

theorem roundtrip_wellFormed {s : String} (h : wellFormedLowerHex s = true) :
    ∃ a : Rgb, hexToRgb s = some a ∧ a.r ≤ 255 ∧ a.g ≤ 255 ∧ a.b ≤ 255 ∧
      rgbToHex (a.r : ℚ) (a.g : ℚ) (a.b : ℚ) = s := by
  obtain ⟨c1, c2, c3, c4, c5, c6, hdata, l1, l2, l3, l4, l5, l6⟩ := wellFormed_data h
  have d1 := hexDigitVal_lt (isHexDigit_of_lower l1)
  have d2 := hexDigitVal_lt (isHexDigit_of_lower l2)
  have d3 := hexDigitVal_lt (isHexDigit_of_lower l3)
  have d4 := hexDigitVal_lt (isHexDigit_of_lower l4)
  have d5 := hexDigitVal_lt (isHexDigit_of_lower l5)
  have d6 := hexDigitVal_lt (isHexDigit_of_lower l6)
  refine ⟨⟨16 * hexDigitVal c1 + hexDigitVal c2, 16 * hexDigitVal c3 + hexDigitVal c4,
    16 * hexDigitVal c5 + hexDigitVal c6⟩, ?_, by dsimp only; omega, by dsimp only; omega,
    by dsimp only; omega, ?_⟩
  · unfold hexToRgb
    rw [hdata]
    exact parseHex6_all_lower l1 l2 l3 l4 l5 l6
  · dsimp only
    rw [rgbToHex_natCast_eval (by omega) (by omega) (by omega)]
    rw [show (16 * hexDigitVal c1 + hexDigitVal c2) / 16 = hexDigitVal c1 from by omega,
        show (16 * hexDigitVal c1 + hexDigitVal c2) % 16 = hexDigitVal c2 from by omega,
        show (16 * hexDigitVal c3 + hexDigitVal c4) / 16 = hexDigitVal c3 from by omega,
        show (16 * hexDigitVal c3 + hexDigitVal c4) % 16 = hexDigitVal c4 from by omega,
        show (16 * hexDigitVal c5 + hexDigitVal c6) / 16 = hexDigitVal c5 from by omega,
        show (16 * hexDigitVal c5 + hexDigitVal c6) % 16 = hexDigitVal c6 from by omega]
    rw [hexChar_hexDigitVal l1, hexChar_hexDigitVal l2, hexChar_hexDigitVal l3,
        hexChar_hexDigitVal l4, hexChar_hexDigitVal l5, hexChar_hexDigitVal l6]
    obtain ⟨data⟩ := s
    simp only [String.data] at hdata
    simp [hdata]

theorem parseHex6_inv {cs : List Char} {a : Rgb} (h : parseHex6 cs = some a) :
    ∃ c1 c2 c3 c4 c5 c6, cs = [c1, c2, c3, c4, c5, c6] ∧
      isHexDigit c1 = true ∧ isHexDigit c2 = true ∧ isHexDigit c3 = true ∧
      isHexDigit c4 = true ∧ isHexDigit c5 = true ∧ isHexDigit c6 = true ∧
      a = ⟨16 * hexDigitVal c1 + hexDigitVal c2, 16 * hexDigitVal c3 + hexDigitVal c4,
           16 * hexDigitVal c5 + hexDigitVal c6⟩ := by
  rcases cs with _ | ⟨c1, _ | ⟨c2, _ | ⟨c3, _ | ⟨c4, _ | ⟨c5, _ | ⟨c6, _ | ⟨c7, tl⟩⟩⟩⟩⟩⟩⟩ <;>
    simp only [parseHex6] at h <;>
    try exact Option.noConfusion h
  split at h
  · next hc =>
    simp only [Bool.and_eq_true] at hc
    obtain ⟨⟨⟨⟨⟨h1, h2⟩, h3⟩, h4⟩, h5⟩, h6⟩ := hc
    injection h with h
    exact ⟨c1, c2, c3, c4, c5, c6, rfl, h1, h2, h3, h4, h5, h6, h.symm⟩
  · exact Option.noConfusion h

theorem hexToRgb_le_255 {s : String} {a : Rgb} (h : hexToRgb s = some a) :
    a.r ≤ 255 ∧ a.g ≤ 255 ∧ a.b ≤ 255 := by
  obtain ⟨c1, c2, c3, c4, c5, c6, _, h1, h2, h3, h4, h5, h6, rfl⟩ := parseHex6_inv h
  have e1 := hexDigitVal_lt h1
  have e2 := hexDigitVal_lt h2
  have e3 := hexDigitVal_lt h3
  have e4 := hexDigitVal_lt h4
  have e5 := hexDigitVal_lt h5
  have e6 := hexDigitVal_lt h6
  refine ⟨by dsimp only; omega, by dsimp only; omega, by dsimp only; omega⟩

/-! ### Interpolation and clamp lemmas -/

theorem lerpColor_eq {h1 h2 : String} {a b : Rgb}
    (p1 : hexToRgb h1 = some a) (p2 : hexToRgb h2 = some b) (t : ℚ) :
    lerpColor h1 h2 t = some (rgbToHex
      ((a.r : ℚ) + ((b.r : ℚ) - (a.r : ℚ)) * t)
      ((a.g : ℚ) + ((b.g : ℚ) - (a.g : ℚ)) * t)
      ((a.b : ℚ) + ((b.b : ℚ) - (a.b : ℚ)) * t)) := by
  simp [lerpColor, p1, p2]

theorem lerpColor_none_iff (h1 h2 : String) (t : ℚ) :
    lerpColor h1 h2 t = none ↔ hexToRgb h1 = none ∨ hexToRgb h2 = none := by
  unfold lerpColor
  rcases hexToRgb h1 with _ | a <;> rcases hexToRgb h2 with _ | b <;> simp

theorem tFactor_nonneg (v : ℚ) : 0 ≤ tFactor v := le_max_left 0 _

theorem tFactor_le_one (v : ℚ) : tFactor v ≤ 1 :=
  max_le (by norm_num) (min_le_left 1 _)

theorem tFactor_mono {v1 v2 : ℚ} (h : v1 ≤ v2) : tFactor v1 ≤ tFactor v2 :=
  max_le_max le_rfl (min_le_min le_rfl (by linarith))

theorem tFactor_of_one_le {v : ℚ} (h : 1 ≤ v) : tFactor v = 1 := by
  unfold tFactor
  rw [min_eq_left (by linarith), max_eq_right (by norm_num)]

theorem tFactor_of_le_neg_one {v : ℚ} (h : v ≤ -1) : tFactor v = 0 := by
  unfold tFactor
  rw [min_eq_right (by linarith), max_eq_left (by linarith)]

theorem lerpChannel_ge {a b : ℕ} {t : ℚ} (h0 : 0 ≤ t) (h1 : t ≤ 1) :
    ((min a b : ℕ) : ℤ) ≤ lerpChannel a b t := by
  have hq : ((min a b : ℕ) : ℚ) ≤ (a : ℚ) + ((b : ℚ) - a) * t := by
    rcases le_total (a : ℕ) b with hab | hab
    · have hab2 : (a : ℚ) ≤ (b : ℚ) := by exact_mod_cast hab
      rw [Nat.cast_min, min_eq_left hab2]
      nlinarith [mul_nonneg (sub_nonneg.mpr hab2) h0]
    · have hab2 : (b : ℚ) ≤ (a : ℚ) := by exact_mod_cast hab
      rw [Nat.cast_min, min_eq_right hab2]
      nlinarith [mul_nonneg (sub_nonneg.mpr hab2) (sub_nonneg.mpr h1)]
  calc ((min a b : ℕ) : ℤ) = jsRound ((min a b : ℕ) : ℚ) := (jsRound_natCast _).symm
    _ ≤ lerpChannel a b t := jsRound_mono hq

theorem lerpChannel_le {a b : ℕ} {t : ℚ} (h0 : 0 ≤ t) (h1 : t ≤ 1) :
    lerpChannel a b t ≤ ((max a b : ℕ) : ℤ) := by
  have hq : (a : ℚ) + ((b : ℚ) - a) * t ≤ ((max a b : ℕ) : ℚ) := by
    rcases le_total (a : ℕ) b with hab | hab
    · have hab2 : (a : ℚ) ≤ (b : ℚ) := by exact_mod_cast hab
      rw [Nat.cast_max, max_eq_right hab2]
      nlinarith [mul_nonneg (sub_nonneg.mpr hab2) (sub_nonneg.mpr h1)]
    · have hab2 : (b : ℚ) ≤ (a : ℚ) := by exact_mod_cast hab
      rw [Nat.cast_max, max_eq_left hab2]
      nlinarith [mul_nonneg (sub_nonneg.mpr hab2) h0]
  calc lerpChannel a b t ≤ jsRound ((max a b : ℕ) : ℚ) := jsRound_mono hq
    _ = ((max a b : ℕ) : ℤ) := jsRound_natCast _

theorem lerpChannel_dist_mono {a b : ℕ} {s1 s2 : ℚ}
    (h0 : 0 ≤ s2) (h21 : s2 ≤ s1) (h1 : s1 ≤ 1) :
    |lerpChannel a b s2 - (a : ℤ)| ≤ |lerpChannel a b s1 - (a : ℤ)| := by
  have h0' : (0 : ℚ) ≤ s1 := le_trans h0 h21
  rcases le_total (a : ℕ) b with hab | hab
  · have hab2 : (a : ℚ) ≤ (b : ℚ) := by exact_mod_cast hab
    have hA : ∀ s : ℚ, 0 ≤ s → (a : ℤ) ≤ lerpChannel a b s := by
      intro s hs
      calc (a : ℤ) = jsRound ((a : ℕ) : ℚ) := (jsRound_natCast a).symm
        _ ≤ lerpChannel a b s :=
          jsRound_mono (by nlinarith [mul_nonneg (sub_nonneg.mpr hab2) hs])
    have hm : lerpChannel a b s2 ≤ lerpChannel a b s1 :=
      jsRound_mono (by nlinarith [mul_nonneg (sub_nonneg.mpr hab2) (sub_nonneg.mpr h21)])
    rw [abs_of_nonneg (sub_nonneg.mpr (hA s2 h0)),
        abs_of_nonneg (sub_nonneg.mpr (hA s1 h0'))]
    omega
  · have hab2 : (b : ℚ) ≤ (a : ℚ) := by exact_mod_cast hab
    have hA : ∀ s : ℚ, 0 ≤ s → lerpChannel a b s ≤ (a : ℤ) := by
      intro s hs
      calc lerpChannel a b s ≤ jsRound ((a : ℕ) : ℚ) :=
          jsRound_mono (by nlinarith [mul_nonneg (sub_nonneg.mpr hab2) hs])
        _ = (a : ℤ) := jsRound_natCast a
    have hm : lerpChannel a b s1 ≤ lerpChannel a b s2 :=
      jsRound_mono (by nlinarith [mul_nonneg (sub_nonneg.mpr hab2) (sub_nonneg.mpr h21)])
    rw [abs_of_nonpos (sub_nonpos.mpr (hA s2 h0)),
        abs_of_nonpos (sub_nonpos.mpr (hA s1 h0'))]
    omega

theorem padHex_int_eval {i : ℤ} (h0 : 0 ≤ i) (h1 : i < 256) :
    padHex i = [hexChar (i.toNat / 16), hexChar (i.toNat % 16)] := by
  obtain ⟨n, rfl⟩ : ∃ n : ℕ, i = (n : ℤ) := ⟨i.toNat, by omega⟩
  rw [show ((n : ℤ)).toNat = n from by omega]
  exact padHex_eval (by omega)

theorem hexToRgb_format {n1 n2 n3 : ℕ} (h1 : n1 < 256) (h2 : n2 < 256) (h3 : n3 < 256) :
    hexToRgb (String.mk ('#' :: ([hexChar (n1 / 16), hexChar (n1 % 16)] ++
        [hexChar (n2 / 16), hexChar (n2 % 16)] ++
        [hexChar (n3 / 16), hexChar (n3 % 16)]))) = some ⟨n1, n2, n3⟩ := by
  have hflat : ([hexChar (n1 / 16), hexChar (n1 % 16)] ++
      [hexChar (n2 / 16), hexChar (n2 % 16)] ++
      [hexChar (n3 / 16), hexChar (n3 % 16)]) =
      [hexChar (n1 / 16), hexChar (n1 % 16), hexChar (n2 / 16), hexChar (n2 % 16),
       hexChar (n3 / 16), hexChar (n3 % 16)] := rfl
  rw [hflat]
  show parseHex6 (stripHash ('#' :: _)) = _
  rw [show ∀ cs, stripHash ('#' :: cs) = cs from fun _ => rfl]
  rw [parseHex6_all_lower (isLowerHexDigit_hexChar (by omega))
    (isLowerHexDigit_hexChar (by omega)) (isLowerHexDigit_hexChar (by omega))
    (isLowerHexDigit_hexChar (by omega)) (isLowerHexDigit_hexChar (by omega))
    (isLowerHexDigit_hexChar (by omega))]
  rw [hexDigitVal_hexChar (by omega : n1 / 16 < 16), hexDigitVal_hexChar (by omega : n1 % 16 < 16),
      hexDigitVal_hexChar (by omega : n2 / 16 < 16), hexDigitVal_hexChar (by omega : n2 % 16 < 16),
      hexDigitVal_hexChar (by omega : n3 / 16 < 16), hexDigitVal_hexChar (by omega : n3 % 16 < 16)]
  rw [show 16 * (n1 / 16) + n1 % 16 = n1 from by omega,
      show 16 * (n2 / 16) + n2 % 16 = n2 from by omega,
      show 16 * (n3 / 16) + n3 % 16 = n3 from by omega]

theorem wellFormed_format {n1 n2 n3 : ℕ} (h1 : n1 < 256) (h2 : n2 < 256) (h3 : n3 < 256) :
    wellFormedLowerHex (String.mk ('#' :: ([hexChar (n1 / 16), hexChar (n1 % 16)] ++
        [hexChar (n2 / 16), hexChar (n2 % 16)] ++
        [hexChar (n3 / 16), hexChar (n3 % 16)]))) = true := by
  simp [wellFormedLowerHex, isLowerHexDigit_hexChar, Nat.div_lt_iff_lt_mul,
    isLowerHexDigit_hexChar (show n1 / 16 < 16 by omega),
    isLowerHexDigit_hexChar (show n1 % 16 < 16 by omega),
    isLowerHexDigit_hexChar (show n2 / 16 < 16 by omega),
    isLowerHexDigit_hexChar (show n2 % 16 < 16 by omega),
    isLowerHexDigit_hexChar (show n3 / 16 < 16 by omega),
    isLowerHexDigit_hexChar (show n3 % 16 < 16 by omega)]

theorem lerpColor_output {h1 h2 : String} {a b : Rgb}
    (p1 : hexToRgb h1 = some a) (p2 : hexToRgb h2 = some b) {t : ℚ}
    (ht0 : 0 ≤ t) (ht1 : t ≤ 1) :
    ∃ s out, lerpColor h1 h2 t = some s ∧ wellFormedLowerHex s = true ∧
      hexToRgb s = some out ∧
      (out.r : ℤ) = lerpChannel a.r b.r t ∧
      (out.g : ℤ) = lerpChannel a.g b.g t ∧
      (out.b : ℤ) = lerpChannel a.b b.b t := by
  obtain ⟨ha1, ha2, ha3⟩ := hexToRgb_le_255 p1
  obtain ⟨hb1, hb2, hb3⟩ := hexToRgb_le_255 p2
  have hr0 : (0 : ℤ) ≤ lerpChannel a.r b.r t :=
    le_trans (Int.natCast_nonneg _) (lerpChannel_ge ht0 ht1)
  have hg0 : (0 : ℤ) ≤ lerpChannel a.g b.g t :=
    le_trans (Int.natCast_nonneg _) (lerpChannel_ge ht0 ht1)
  have hb0 : (0 : ℤ) ≤ lerpChannel a.b b.b t :=
    le_trans (Int.natCast_nonneg _) (lerpChannel_ge ht0 ht1)
  have hr2 : lerpChannel a.r b.r t < 256 :=
    lt_of_le_of_lt (lerpChannel_le ht0 ht1)
      (by exact_mod_cast Nat.lt_succ_of_le (max_le ha1 hb1))
  have hg2 : lerpChannel a.g b.g t < 256 :=
    lt_of_le_of_lt (lerpChannel_le ht0 ht1)
      (by exact_mod_cast Nat.lt_succ_of_le (max_le ha2 hb2))
  have hb2' : lerpChannel a.b b.b t < 256 :=
    lt_of_le_of_lt (lerpChannel_le ht0 ht1)
      (by exact_mod_cast Nat.lt_succ_of_le (max_le ha3 hb3))
  rw [lerpColor_eq p1 p2 t]
  have hfmt : rgbToHex ((a.r : ℚ) + ((b.r : ℚ) - (a.r : ℚ)) * t)
      ((a.g : ℚ) + ((b.g : ℚ) - (a.g : ℚ)) * t)
      ((a.b : ℚ) + ((b.b : ℚ) - (a.b : ℚ)) * t) =
      String.mk ('#' :: (padHex (lerpChannel a.r b.r t) ++
        padHex (lerpChannel a.g b.g t) ++ padHex (lerpChannel a.b b.b t))) := rfl
  rw [hfmt, padHex_int_eval hr0 hr2, padHex_int_eval hg0 hg2, padHex_int_eval hb0 hb2']
  refine ⟨_, ⟨(lerpChannel a.r b.r t).toNat, (lerpChannel a.g b.g t).toNat,
    (lerpChannel a.b b.b t).toNat⟩, rfl, ?_, ?_, by dsimp only; omega,
    by dsimp only; omega, by dsimp only; omega⟩
  · exact wellFormed_format (by omega) (by omega) (by omega)
  · exact hexToRgb_format (by omega) (by omega) (by omega)

theorem rgbToHex_jsRound (r g b : ℚ) (ir ig ib : ℤ)
    (hr : jsRound r = ir) (hg : jsRound g = ig) (hb : jsRound b = ib) :
    rgbToHex r g b = String.mk ('#' :: (padHex ir ++ padHex ig ++ padHex ib)) := by
  simp [rgbToHex, hr, hg, hb]

theorem tFactor_zero : tFactor 0 = 1 / 2 := by
  unfold tFactor
  rw [min_eq_right (by norm_num), max_eq_right (by norm_num)]
  norm_num

/-! ### Claim theorems -/

/-- C1: `colorFor` at value 0 with high color `"#0046D4"` and low color
`"#CCDAF6"` returns exactly `lerpColor "#0046D4" "#CCDAF6" (1/2)`, which is
the rounded channel-wise midpoint of (0,70,212) and (204,218,246), namely
(102,144,229), formatted as `"#6690e5"`. -/
theorem C1_colorFor_zero_is_midpoint :
    colorFor 0 "#0046D4" "#CCDAF6" = lerpColor "#0046D4" "#CCDAF6" (1 / 2) ∧
    lerpColor "#0046D4" "#CCDAF6" (1 / 2) = some "#6690e5" ∧
    hexToRgb "#0046D4" = some ⟨0, 70, 212⟩ ∧
    hexToRgb "#CCDAF6" = some ⟨204, 218, 246⟩ := by
  have p1 : hexToRgb "#0046D4" = some ⟨0, 70, 212⟩ := by decide
  have p2 : hexToRgb "#CCDAF6" = some ⟨204, 218, 246⟩ := by decide
  refine ⟨?_, ?_, p1, p2⟩
  · show lerpColor "#0046D4" "#CCDAF6" (1 - tFactor 0) = _
    rw [tFactor_zero]
    norm_num
  · rw [lerpColor_eq p1 p2]
    dsimp only
    rw [rgbToHex_jsRound _ _ _ 102 144 229 (by norm_num [jsRound]) (by norm_num [jsRound])
      (by norm_num [jsRound])]
    decide

/-- C2: for every string of `#` followed by exactly six lowercase
hexadecimal digits, `hexToRgb` succeeds and `rgbToHex` applied to its three
channels returns the original string. -/
theorem C2_parse_format_roundtrip (s : String) (h : wellFormedLowerHex s = true) :
    ∃ a : Rgb, hexToRgb s = some a ∧
      rgbToHex (a.r : ℚ) (a.g : ℚ) (a.b : ℚ) = s := by
  obtain ⟨a, hp, _, _, _, hf⟩ := roundtrip_wellFormed h
  exact ⟨a, hp, hf⟩

theorem C2_parse_format_roundtrip_witness :
    wellFormedLowerHex "#6690e5" = true ∧
    ∃ a : Rgb, hexToRgb "#6690e5" = some a ∧
      rgbToHex (a.r : ℚ) (a.g : ℚ) (a.b : ℚ) = "#6690e5" :=
  ⟨by decide, C2_parse_format_roundtrip "#6690e5" (by decide)⟩

/-- C3: `colorFor` is monotone in the value — the clamped factor is
monotone, and every output channel of the color for the larger value lies
no farther from the corresponding high-color channel than the channel of
the color for the smaller value. -/
theorem C3_colorFor_monotone (v1 v2 : ℚ) (H L : String) (a b : Rgb)
    (hv : v1 < v2) (p1 : hexToRgb H = some a) (p2 : hexToRgb L = some b) :
    tFactor v1 ≤ tFactor v2 ∧
    ∃ s1 s2 o1 o2, colorFor v1 H L = some s1 ∧ colorFor v2 H L = some s2 ∧
      hexToRgb s1 = some o1 ∧ hexToRgb s2 = some o2 ∧
      |(o2.r : ℤ) - (a.r : ℤ)| ≤ |(o1.r : ℤ) - (a.r : ℤ)| ∧
      |(o2.g : ℤ) - (a.g : ℤ)| ≤ |(o1.g : ℤ) - (a.g : ℤ)| ∧
      |(o2.b : ℤ) - (a.b : ℤ)| ≤ |(o1.b : ℤ) - (a.b : ℤ)| := by
  have htm : tFactor v1 ≤ tFactor v2 := tFactor_mono (le_of_lt hv)
  have hs10 : (0 : ℚ) ≤ 1 - tFactor v1 := by linarith [tFactor_le_one v1]
  have hs11 : 1 - tFactor v1 ≤ 1 := by linarith [tFactor_nonneg v1]
  have hs20 : (0 : ℚ) ≤ 1 - tFactor v2 := by linarith [tFactor_le_one v2]
  obtain ⟨s1, o1, he1, _, hp1, hr1, hg1, hb1⟩ := lerpColor_output p1 p2 hs10 hs11
  obtain ⟨s2, o2, he2, _, hp2, hr2, hg2, hb2⟩ :=
    lerpColor_output p1 p2 hs20 (by linarith [tFactor_nonneg v2])
  have he1' : colorFor v1 H L = some s1 := he1
  have he2' : colorFor v2 H L = some s2 := he2
  refine ⟨htm, s1, s2, o1, o2, he1', he2', hp1, hp2, ?_, ?_, ?_⟩
  · rw [hr1, hr2]
    exact lerpChannel_dist_mono hs20 (by linarith) hs11
  · rw [hg1, hg2]
    exact lerpChannel_dist_mono hs20 (by linarith) hs11
  · rw [hb1, hb2]
    exact lerpChannel_dist_mono hs20 (by linarith) hs11

theorem C3_colorFor_monotone_witness :
    tFactor 0 ≤ tFactor 1 ∧
    ∃ s1 s2 o1 o2, colorFor 0 "#0046D4" "#CCDAF6" = some s1 ∧
      colorFor 1 "#0046D4" "#CCDAF6" = some s2 ∧
      hexToRgb s1 = some o1 ∧ hexToRgb s2 = some o2 ∧
      |(o2.r : ℤ) - ((Rgb.mk 0 70 212).r : ℤ)| ≤ |(o1.r : ℤ) - ((Rgb.mk 0 70 212).r : ℤ)| ∧
      |(o2.g : ℤ) - ((Rgb.mk 0 70 212).g : ℤ)| ≤ |(o1.g : ℤ) - ((Rgb.mk 0 70 212).g : ℤ)| ∧
      |(o2.b : ℤ) - ((Rgb.mk 0 70 212).b : ℤ)| ≤ |(o1.b : ℤ) - ((Rgb.mk 0 70 212).b : ℤ)| :=
  C3_colorFor_monotone 0 1 "#0046D4" "#CCDAF6" (Rgb.mk 0 70 212) (Rgb.mk 204 218 246)
    (by norm_num) (by decide) (by decide)

/-- C4 as stated is false: with the valid high color `"#0046D4"` (uppercase
hexadecimal digits) and valid low color `"#CCDAF6"`, `colorFor 1` returns
the lowercase rendering `"#0046d4"`, not the string `"#0046D4"` itself. -/
theorem C4_counterexample :
    (hexToRgb "#0046D4").isSome = true ∧ (hexToRgb "#CCDAF6").isSome = true ∧
    colorFor 1 "#0046D4" "#CCDAF6" = some "#0046d4" ∧
    "#0046d4" ≠ "#0046D4" := by
  have p1 : hexToRgb "#0046D4" = some ⟨0, 70, 212⟩ := by decide
  have p2 : hexToRgb "#CCDAF6" = some ⟨204, 218, 246⟩ := by decide
  refine ⟨by decide, by decide, ?_, by decide⟩
  show lerpColor "#0046D4" "#CCDAF6" (1 - tFactor 1) = _
  rw [tFactor_of_one_le le_rfl]
  norm_num
  rw [lerpColor_eq p1 p2]
  dsimp only
  rw [rgbToHex_jsRound _ _ _ 0 70 212 (by norm_num [jsRound]) (by norm_num [jsRound])
    (by norm_num [jsRound])]
  decide

theorem wellFormed_rgbToHex {r g b : ℕ} (hr : r ≤ 255) (hg : g ≤ 255) (hb : b ≤ 255) :
    wellFormedLowerHex (rgbToHex (r : ℚ) (g : ℚ) (b : ℚ)) = true := by
  rw [rgbToHex_natCast_eval (by omega) (by omega) (by omega)]
  exact wellFormed_format (by omega) (by omega) (by omega)

/-- C4 amended: for every pair of valid 6-digit hex strings, `colorFor 1`
returns the canonical lowercase `#`-prefixed rendering of the high color's
channels and `colorFor (-1)` that of the low color's channels; the result
equals the input string verbatim if and only if that input is already in
canonical form. -/
theorem C4_extremes_canonical (H L : String) (a b : Rgb)
    (p1 : hexToRgb H = some a) (p2 : hexToRgb L = some b) :
    colorFor 1 H L = some (rgbToHex (a.r : ℚ) (a.g : ℚ) (a.b : ℚ)) ∧
    colorFor (-1) H L = some (rgbToHex (b.r : ℚ) (b.g : ℚ) (b.b : ℚ)) ∧
    (colorFor 1 H L = some H ↔ wellFormedLowerHex H = true) ∧
    (colorFor (-1) H L = some L ↔ wellFormedLowerHex L = true) := by
  obtain ⟨ha1, ha2, ha3⟩ := hexToRgb_le_255 p1
  obtain ⟨hb1, hb2, hb3⟩ := hexToRgb_le_255 p2
  have hc1 : colorFor 1 H L = some (rgbToHex (a.r : ℚ) (a.g : ℚ) (a.b : ℚ)) := by
    show lerpColor H L (1 - tFactor 1) = _
    rw [tFactor_of_one_le le_rfl]
    norm_num
    rw [lerpColor_eq p1 p2]
    simp only [mul_zero, add_zero]
  have hc2 : colorFor (-1) H L = some (rgbToHex (b.r : ℚ) (b.g : ℚ) (b.b : ℚ)) := by
    show lerpColor H L (1 - tFactor (-1)) = _
    rw [tFactor_of_le_neg_one le_rfl]
    norm_num
    rw [lerpColor_eq p1 p2]
    have harg : ∀ x y : ℚ, x + (y - x) * 1 = y := fun x y => by ring
    rw [harg, harg, harg]
  refine ⟨hc1, hc2, ⟨fun hH => ?_, fun hH => ?_⟩, ⟨fun hL => ?_, fun hL => ?_⟩⟩
  · have heq : H = rgbToHex (a.r : ℚ) (a.g : ℚ) (a.b : ℚ) :=
      Option.some.inj (hH.symm.trans hc1)
    rw [heq]
    exact wellFormed_rgbToHex ha1 ha2 ha3
  · obtain ⟨a2, pa2, _, _, _, fa2⟩ := roundtrip_wellFormed hH
    rw [p1] at pa2
    obtain rfl := Option.some.inj pa2
    rw [hc1, fa2]
  · have heq : L = rgbToHex (b.r : ℚ) (b.g : ℚ) (b.b : ℚ) :=
      Option.some.inj (hL.symm.trans hc2)
    rw [heq]
    exact wellFormed_rgbToHex hb1 hb2 hb3
  · obtain ⟨b2, pb2, _, _, _, fb2⟩ := roundtrip_wellFormed hL
    rw [p2] at pb2
    obtain rfl := Option.some.inj pb2
    rw [hc2, fb2]

theorem C4_extremes_canonical_witness :
    colorFor 1 "#0046D4" "#CCDAF6" =
      some (rgbToHex ((Rgb.mk 0 70 212).r : ℚ) ((Rgb.mk 0 70 212).g : ℚ)
        ((Rgb.mk 0 70 212).b : ℚ)) ∧
    colorFor (-1) "#0046D4" "#CCDAF6" =
      some (rgbToHex ((Rgb.mk 204 218 246).r : ℚ) ((Rgb.mk 204 218 246).g : ℚ)
        ((Rgb.mk 204 218 246).b : ℚ)) ∧
    (colorFor 1 "#0046D4" "#CCDAF6" = some "#0046D4" ↔
      wellFormedLowerHex "#0046D4" = true) ∧
    (colorFor (-1) "#0046D4" "#CCDAF6" = some "#CCDAF6" ↔
      wellFormedLowerHex "#CCDAF6" = true) :=
  C4_extremes_canonical "#0046D4" "#CCDAF6" (Rgb.mk 0 70 212) (Rgb.mk 204 218 246)
    (by decide) (by decide)

/-- C5 as stated is false: with the valid colors `A = "#CCDAF6"` (uppercase
digits) and `B = "#0046d4"`, interpolation at factor 0 returns the
lowercase rendering `"#ccdaf6"`, not the string `"#CCDAF6"` itself. -/
theorem C5_counterexample :
    (hexToRgb "#CCDAF6").isSome = true ∧ (hexToRgb "#0046d4").isSome = true ∧
    lerpColor "#CCDAF6" "#0046d4" 0 = some "#ccdaf6" ∧
    "#ccdaf6" ≠ "#CCDAF6" := by
  have p1 : hexToRgb "#CCDAF6" = some ⟨204, 218, 246⟩ := by decide
  have p2 : hexToRgb "#0046d4" = some ⟨0, 70, 212⟩ := by decide
  refine ⟨by decide, by decide, ?_, by decide⟩
  rw [lerpColor_eq p1 p2]
  simp only [mul_zero, add_zero]
  rw [rgbToHex_jsRound _ _ _ 204 218 246 (by norm_num [jsRound]) (by norm_num [jsRound])
    (by norm_num [jsRound])]
  decide

/-- C5 amended: for every pair of valid 6-digit hex strings, `lerpColor`
at factor 0 returns the canonical lowercase `#`-prefixed rendering of the
first color's channels and at factor 1 that of the second color's channels
(exact, no rounding loss); the result equals the input string verbatim if
and only if that input is already in canonical form. -/
theorem C5_lerp_endpoints_canonical (A B : String) (a b : Rgb)
    (pa : hexToRgb A = some a) (pb : hexToRgb B = some b) :
    lerpColor A B 0 = some (rgbToHex (a.r : ℚ) (a.g : ℚ) (a.b : ℚ)) ∧
    lerpColor A B 1 = some (rgbToHex (b.r : ℚ) (b.g : ℚ) (b.b : ℚ)) ∧
    (lerpColor A B 0 = some A ↔ wellFormedLowerHex A = true) ∧
    (lerpColor A B 1 = some B ↔ wellFormedLowerHex B = true) := by
  obtain ⟨ha1, ha2, ha3⟩ := hexToRgb_le_255 pa
  obtain ⟨hb1, hb2, hb3⟩ := hexToRgb_le_255 pb
  have hc0 : lerpColor A B 0 = some (rgbToHex (a.r : ℚ) (a.g : ℚ) (a.b : ℚ)) := by
    rw [lerpColor_eq pa pb]
    simp only [mul_zero, add_zero]
  have hc1 : lerpColor A B 1 = some (rgbToHex (b.r : ℚ) (b.g : ℚ) (b.b : ℚ)) := by
    rw [lerpColor_eq pa pb]
    have harg : ∀ x y : ℚ, x + (y - x) * 1 = y := fun x y => by ring
    rw [harg, harg, harg]
  refine ⟨hc0, hc1, ⟨fun hA => ?_, fun hA => ?_⟩, ⟨fun hB => ?_, fun hB => ?_⟩⟩
  · have heq : A = rgbToHex (a.r : ℚ) (a.g : ℚ) (a.b : ℚ) :=
      Option.some.inj (hA.symm.trans hc0)
    rw [heq]
    exact wellFormed_rgbToHex ha1 ha2 ha3
  · obtain ⟨a2, pa2, _, _, _, fa2⟩ := roundtrip_wellFormed hA
    rw [pa] at pa2
    obtain rfl := Option.some.inj pa2
    rw [hc0, fa2]
  · have heq : B = rgbToHex (b.r : ℚ) (b.g : ℚ) (b.b : ℚ) :=
      Option.some.inj (hB.symm.trans hc1)
    rw [heq]
    exact wellFormed_rgbToHex hb1 hb2 hb3
  · obtain ⟨b2, pb2, _, _, _, fb2⟩ := roundtrip_wellFormed hB
    rw [pb] at pb2
    obtain rfl := Option.some.inj pb2
    rw [hc1, fb2]

theorem C5_lerp_endpoints_canonical_witness :
    lerpColor "#CCDAF6" "#0046d4" 0 =
      some (rgbToHex ((Rgb.mk 204 218 246).r : ℚ) ((Rgb.mk 204 218 246).g : ℚ)
        ((Rgb.mk 204 218 246).b : ℚ)) ∧
    lerpColor "#CCDAF6" "#0046d4" 1 =
      some (rgbToHex ((Rgb.mk 0 70 212).r : ℚ) ((Rgb.mk 0 70 212).g : ℚ)
        ((Rgb.mk 0 70 212).b : ℚ)) ∧
    (lerpColor "#CCDAF6" "#0046d4" 0 = some "#CCDAF6" ↔
      wellFormedLowerHex "#CCDAF6" = true) ∧
    (lerpColor "#CCDAF6" "#0046d4" 1 = some "#0046d4" ↔
      wellFormedLowerHex "#0046d4" = true) :=
  C5_lerp_endpoints_canonical "#CCDAF6" "#0046d4" (Rgb.mk 204 218 246) (Rgb.mk 0 70 212)
    (by decide) (by decide)

/-- C6: out-of-domain values are silently clamped — for any colors, every
value at least 1 yields exactly the color of value 1, and every value at
most -1 yields exactly the color of value -1. -/
theorem C6_clamped_values (v : ℚ) (H L : String) :
    (1 ≤ v → colorFor v H L = colorFor 1 H L) ∧
    (v ≤ -1 → colorFor v H L = colorFor (-1) H L) := by
  constructor
  · intro h
    show lerpColor H L (1 - tFactor v) = lerpColor H L (1 - tFactor 1)
    rw [tFactor_of_one_le h, tFactor_of_one_le le_rfl]
  · intro h
    show lerpColor H L (1 - tFactor v) = lerpColor H L (1 - tFactor (-1))
    rw [tFactor_of_le_neg_one h, tFactor_of_le_neg_one le_rfl]

theorem C6_clamped_values_witness :
    colorFor 5 "#0046D4" "#CCDAF6" = colorFor 1 "#0046D4" "#CCDAF6" ∧
    colorFor (-5) "#0046D4" "#CCDAF6" = colorFor (-1) "#0046D4" "#CCDAF6" :=
  ⟨(C6_clamped_values 5 "#0046D4" "#CCDAF6").1 (by norm_num),
   (C6_clamped_values (-5) "#0046D4" "#CCDAF6").2 (by norm_num)⟩

/-- C7: every string that fails the pattern of an optional `#` followed by
exactly six hexadecimal digits is rejected with `none` (no exception — the
embedding is a total function); in particular `"not-a-color"`, the 5-digit
`"#12345"`, the non-hex `"#GGGGGG"` and every 3-digit shorthand fail. -/
theorem C7_invalid_inputs_rejected :
    (∀ s : String, matchesHexPattern s = false → hexToRgb s = none) ∧
    hexToRgb "not-a-color" = none ∧ hexToRgb "#12345" = none ∧
    hexToRgb "#GGGGGG" = none ∧
    (∀ c1 c2 c3 : Char, isHexDigit c1 = true → isHexDigit c2 = true →
      isHexDigit c3 = true → hexToRgb (String.mk ['#', c1, c2, c3]) = none) := by
  refine ⟨?_, by decide, by decide, by decide, ?_⟩
  · intro s hm
    unfold matchesHexPattern at hm
    unfold hexToRgb
    revert hm
    generalize stripHash s.data = cs
    intro hm
    rcases cs with _ | ⟨c1, _ | ⟨c2, _ | ⟨c3, _ | ⟨c4, _ | ⟨c5, _ | ⟨c6, _ | ⟨c7, tl⟩⟩⟩⟩⟩⟩⟩ <;>
      simp only [parseHex6] <;> try rfl
    split
    · next hc =>
      exfalso
      simp only [Bool.and_eq_true] at hc
      obtain ⟨⟨⟨⟨⟨h1, h2⟩, h3⟩, h4⟩, h5⟩, h6⟩ := hc
      simp [h1, h2, h3, h4, h5, h6] at hm
    · rfl
  · intro c1 c2 c3 _ _ _
    rfl

/-- C8: `lerpColor` raises (returns `none`) exactly when at least one of
its color arguments fails hex parsing; whenever both parse it returns a
color for every interpolation factor. -/
theorem C8_lerp_error_condition (h1 h2 : String) (t : ℚ) :
    lerpColor h1 h2 t = none ↔ hexToRgb h1 = none ∨ hexToRgb h2 = none :=
  lerpColor_none_iff h1 h2 t

/-- C9 as stated is false: for the valid, distinct pair low `"#000000"`
and high `"#000001"` the eight legend dots are not pairwise distinct — the
first two dots both round to `"#000000"`. -/
theorem C9_counterexample :
    (hexToRgb "#000000").isSome = true ∧ (hexToRgb "#000001").isSome = true ∧
    ¬ (generateLegendDots "#000000" "#000001").Nodup := by
  have p1 : hexToRgb "#000000" = some ⟨0, 0, 0⟩ := by decide
  have p2 : hexToRgb "#000001" = some ⟨0, 0, 1⟩ := by decide
  refine ⟨by decide, by decide, ?_⟩
  have e0 : lerpColor "#000000" "#000001" (((0 : ℕ) : ℚ) / 7) = some "#000000" := by
    rw [lerpColor_eq p1 p2]
    dsimp only
    rw [rgbToHex_jsRound _ _ _ 0 0 0 (by norm_num [jsRound]) (by norm_num [jsRound])
      (by norm_num [jsRound])]
    decide
  have e1 : lerpColor "#000000" "#000001" (((1 : ℕ) : ℚ) / 7) = some "#000000" := by
    rw [lerpColor_eq p1 p2]
    dsimp only
    rw [rgbToHex_jsRound _ _ _ 0 0 0 (by norm_num [jsRound]) (by norm_num [jsRound])
      (by norm_num [jsRound])]
    decide
  intro hn
  have hexp : generateLegendDots "#000000" "#000001" =
      [lerpColor "#000000" "#000001" (((0 : ℕ) : ℚ) / 7),
       lerpColor "#000000" "#000001" (((1 : ℕ) : ℚ) / 7),
       lerpColor "#000000" "#000001" (((2 : ℕ) : ℚ) / 7),
       lerpColor "#000000" "#000001" (((3 : ℕ) : ℚ) / 7),
       lerpColor "#000000" "#000001" (((4 : ℕ) : ℚ) / 7),
       lerpColor "#000000" "#000001" (((5 : ℕ) : ℚ) / 7),
       lerpColor "#000000" "#000001" (((6 : ℕ) : ℚ) / 7),
       lerpColor "#000000" "#000001" (((7 : ℕ) : ℚ) / 7)] := rfl
  rw [hexp, List.nodup_cons] at hn
  apply hn.1
  rw [e0, e1]
  exact List.mem_cons_self _ _

/-- C9 amended: the legend always has exactly 8 dots, all produced; the
first is the canonical lowercase rendering of the low color and the last
the canonical rendering of the high color (so they equal the inputs only
up to canonical formatting); the dots need not be pairwise distinct for
every valid pair, but they are for the component's default color pair
low `"#CCDAF6"`, high `"#0046D4"`. -/
theorem C9_legend_dots (lo hi : String) (a b : Rgb)
    (p1 : hexToRgb lo = some a) (p2 : hexToRgb hi = some b) :
    (generateLegendDots lo hi).length = 8 ∧
    (generateLegendDots lo hi).head? =
      some (some (rgbToHex (a.r : ℚ) (a.g : ℚ) (a.b : ℚ))) ∧
    (generateLegendDots lo hi).getLast? =
      some (some (rgbToHex (b.r : ℚ) (b.g : ℚ) (b.b : ℚ))) ∧
    (generateLegendDots "#CCDAF6" "#0046D4").Nodup := by
  have hexp : ∀ l h : String, generateLegendDots l h =
      [lerpColor l h (((0 : ℕ) : ℚ) / 7), lerpColor l h (((1 : ℕ) : ℚ) / 7),
       lerpColor l h (((2 : ℕ) : ℚ) / 7), lerpColor l h (((3 : ℕ) : ℚ) / 7),
       lerpColor l h (((4 : ℕ) : ℚ) / 7), lerpColor l h (((5 : ℕ) : ℚ) / 7),
       lerpColor l h (((6 : ℕ) : ℚ) / 7), lerpColor l h (((7 : ℕ) : ℚ) / 7)] :=
    fun l h => rfl
  refine ⟨by rw [hexp]; rfl, ?_, ?_, ?_⟩
  · rw [hexp]
    show some (lerpColor lo hi (((0 : ℕ) : ℚ) / 7)) = _
    rw [show (((0 : ℕ) : ℚ) / 7) = 0 from by norm_num, lerpColor_eq p1 p2]
    simp only [mul_zero, add_zero]
  · rw [hexp]
    show some (lerpColor lo hi (((7 : ℕ) : ℚ) / 7)) = _
    rw [show (((7 : ℕ) : ℚ) / 7) = 1 from by norm_num, lerpColor_eq p1 p2]
    have harg : ∀ x y : ℚ, x + (y - x) * 1 = y := fun x y => by ring
    rw [harg, harg, harg]
  · have q1 : hexToRgb "#CCDAF6" = some ⟨204, 218, 246⟩ := by decide
    have q2 : hexToRgb "#0046D4" = some ⟨0, 70, 212⟩ := by decide
    have e0 : lerpColor "#CCDAF6" "#0046D4" (((0 : ℕ) : ℚ) / 7) = some "#ccdaf6" := by
      rw [lerpColor_eq q1 q2]
      dsimp only
      rw [rgbToHex_jsRound _ _ _ 204 218 246 (by norm_num [jsRound]) (by norm_num [jsRound])
        (by norm_num [jsRound])]
      decide
    have e1 : lerpColor "#CCDAF6" "#0046D4" (((1 : ℕ) : ℚ) / 7) = some "#afc5f1" := by
      rw [lerpColor_eq q1 q2]
      dsimp only
      rw [rgbToHex_jsRound _ _ _ 175 197 241 (by norm_num [jsRound]) (by norm_num [jsRound])
        (by norm_num [jsRound])]
      decide
    have e2 : lerpColor "#CCDAF6" "#0046D4" (((2 : ℕ) : ℚ) / 7) = some "#92b0ec" := by
      rw [lerpColor_eq q1 q2]
      dsimp only
      rw [rgbToHex_jsRound _ _ _ 146 176 236 (by norm_num [jsRound]) (by norm_num [jsRound])
        (by norm_num [jsRound])]
      decide
    have e3 : lerpColor "#CCDAF6" "#0046D4" (((3 : ℕ) : ℚ) / 7) = some "#759be7" := by
      rw [lerpColor_eq q1 q2]
      dsimp only
      rw [rgbToHex_jsRound _ _ _ 117 155 231 (by norm_num [jsRound]) (by norm_num [jsRound])
        (by norm_num [jsRound])]
      decide
    have e4 : lerpColor "#CCDAF6" "#0046D4" (((4 : ℕ) : ℚ) / 7) = some "#5785e3" := by
      rw [lerpColor_eq q1 q2]
      dsimp only
      rw [rgbToHex_jsRound _ _ _ 87 133 227 (by norm_num [jsRound]) (by norm_num [jsRound])
        (by norm_num [jsRound])]
      decide
    have e5 : lerpColor "#CCDAF6" "#0046D4" (((5 : ℕ) : ℚ) / 7) = some "#3a70de" := by
      rw [lerpColor_eq q1 q2]
      dsimp only
      rw [rgbToHex_jsRound _ _ _ 58 112 222 (by norm_num [jsRound]) (by norm_num [jsRound])
        (by norm_num [jsRound])]
      decide
    have e6 : lerpColor "#CCDAF6" "#0046D4" (((6 : ℕ) : ℚ) / 7) = some "#1d5bd9" := by
      rw [lerpColor_eq q1 q2]
      dsimp only
      rw [rgbToHex_jsRound _ _ _ 29 91 217 (by norm_num [jsRound]) (by norm_num [jsRound])
        (by norm_num [jsRound])]
      decide
    have e7 : lerpColor "#CCDAF6" "#0046D4" (((7 : ℕ) : ℚ) / 7) = some "#0046d4" := by
      rw [lerpColor_eq q1 q2]
      dsimp only
      rw [rgbToHex_jsRound _ _ _ 0 70 212 (by norm_num [jsRound]) (by norm_num [jsRound])
        (by norm_num [jsRound])]
      decide
    rw [hexp, e0, e1, e2, e3, e4, e5, e6, e7]
    decide

theorem C9_legend_dots_witness :
    (generateLegendDots "#CCDAF6" "#0046D4").length = 8 ∧
    (generateLegendDots "#CCDAF6" "#0046D4").head? =
      some (some (rgbToHex (((Rgb.mk 204 218 246).r : ℕ) : ℚ)
        (((Rgb.mk 204 218 246).g : ℕ) : ℚ) (((Rgb.mk 204 218 246).b : ℕ) : ℚ))) ∧
    (generateLegendDots "#CCDAF6" "#0046D4").getLast? =
      some (some (rgbToHex (((Rgb.mk 0 70 212).r : ℕ) : ℚ)
        (((Rgb.mk 0 70 212).g : ℕ) : ℚ) (((Rgb.mk 0 70 212).b : ℕ) : ℚ))) ∧
    (generateLegendDots "#CCDAF6" "#0046D4").Nodup :=
  C9_legend_dots "#CCDAF6" "#0046D4" (Rgb.mk 204 218 246) (Rgb.mk 0 70 212)
    (by decide) (by decide)

/-- C10: for every value and every pair of valid colors, `colorFor` returns
a well-formed `#`-plus-six-lowercase-hex string whose parsed channels each
lie between the corresponding channels of the two endpoint colors — the
clamp of the factor keeps every rounded channel inside [0, 255], so the
malformed branch of `rgbToHex` is unreachable through `colorFor`. -/
theorem C10_colorFor_total_bounded (v : ℚ) (H L : String) (a b : Rgb)
    (p1 : hexToRgb H = some a) (p2 : hexToRgb L = some b) :
    ∃ s out, colorFor v H L = some s ∧ wellFormedLowerHex s = true ∧
      hexToRgb s = some out ∧
      min a.r b.r ≤ out.r ∧ out.r ≤ max a.r b.r ∧
      min a.g b.g ≤ out.g ∧ out.g ≤ max a.g b.g ∧
      min a.b b.b ≤ out.b ∧ out.b ≤ max a.b b.b := by
  have hs0 : (0 : ℚ) ≤ 1 - tFactor v := by linarith [tFactor_le_one v]
  have hs1 : 1 - tFactor v ≤ 1 := by linarith [tFactor_nonneg v]
  obtain ⟨s, out, he, hw, hp, hr, hg, hb⟩ := lerpColor_output p1 p2 hs0 hs1
  have he' : colorFor v H L = some s := he
  have hrge : ((min a.r b.r : ℕ) : ℤ) ≤ lerpChannel a.r b.r (1 - tFactor v) :=
    lerpChannel_ge hs0 hs1
  have hrle : lerpChannel a.r b.r (1 - tFactor v) ≤ ((max a.r b.r : ℕ) : ℤ) :=
    lerpChannel_le hs0 hs1
  have hgge : ((min a.g b.g : ℕ) : ℤ) ≤ lerpChannel a.g b.g (1 - tFactor v) :=
    lerpChannel_ge hs0 hs1
  have hgle : lerpChannel a.g b.g (1 - tFactor v) ≤ ((max a.g b.g : ℕ) : ℤ) :=
    lerpChannel_le hs0 hs1
  have hbge : ((min a.b b.b : ℕ) : ℤ) ≤ lerpChannel a.b b.b (1 - tFactor v) :=
    lerpChannel_ge hs0 hs1
  have hble : lerpChannel a.b b.b (1 - tFactor v) ≤ ((max a.b b.b : ℕ) : ℤ) :=
    lerpChannel_le hs0 hs1
  rw [← hr] at hrge hrle
  rw [← hg] at hgge hgle
  rw [← hb] at hbge hble
  exact ⟨s, out, he', hw, hp, by exact_mod_cast hrge, by exact_mod_cast hrle,
    by exact_mod_cast hgge, by exact_mod_cast hgle,
    by exact_mod_cast hbge, by exact_mod_cast hble⟩

theorem C10_colorFor_total_bounded_witness :
    ∃ s out, colorFor 0 "#0046D4" "#CCDAF6" = some s ∧ wellFormedLowerHex s = true ∧
      hexToRgb s = some out ∧
      min (Rgb.mk 0 70 212).r (Rgb.mk 204 218 246).r ≤ out.r ∧
      out.r ≤ max (Rgb.mk 0 70 212).r (Rgb.mk 204 218 246).r ∧
      min (Rgb.mk 0 70 212).g (Rgb.mk 204 218 246).g ≤ out.g ∧
      out.g ≤ max (Rgb.mk 0 70 212).g (Rgb.mk 204 218 246).g ∧
      min (Rgb.mk 0 70 212).b (Rgb.mk 204 218 246).b ≤ out.b ∧
      out.b ≤ max (Rgb.mk 0 70 212).b (Rgb.mk 204 218 246).b :=
  C10_colorFor_total_bounded 0 "#0046D4" "#CCDAF6" (Rgb.mk 0 70 212)
    (Rgb.mk 204 218 246) (by decide) (by decide)

theorem C7_invalid_inputs_rejected_witness :
    hexToRgb "zz-not-hex" = none ∧ hexToRgb (String.mk ['#', '1', '2', '3']) = none :=
  ⟨C7_invalid_inputs_rejected.1 "zz-not-hex" (by decide),
   C7_invalid_inputs_rejected.2.2.2.2 '1' '2' '3' (by decide) (by decide) (by decide)⟩

end Colors
